import Mathlib

/-!
Shallow embedding of `library.py` from the Lbrary-Management repository:
the `BookStatus` enum, the `Book` record with its dict (de)serialization,
the JSON-file persistence layer (`LibraryStorage`), and the catalog
operations of the `Library` class (`add_book`, `remove_book`,
`search_books`, `update_status`, `display_books`).

Python machine/IO details are embedded as follows: the in-memory
collection `self.books` is a `List Book`; the backing file is abstracted
to the outcome of `open` + `json.load` (`FileState`); Python exceptions
relevant to this code are the constructors of `PyError`, and fallible
operations return `Except PyError _`.  Catalog operations mutate
`self.books` in place and then persist; we model them as functions from
the current collection to the new collection (persistence itself is the
separately modelled `save_books`).
-/

set_option autoImplicit false

deriving instance DecidableEq for Except

namespace Lbrary

/-- `class BookStatus(Enum)`: the two status values, whose external string
representations (`.value` in Python) are the fixed localized literals
`"в наличии"` (AVAILABLE) and `"выдана"` (ISSUED). -/
inductive BookStatus where
  | AVAILABLE
  | ISSUED
deriving DecidableEq, Repr

/-- The `.value` attribute of a `BookStatus` member. -/
def BookStatus.value : BookStatus → String
  | .AVAILABLE => "в наличии"
  | .ISSUED => "выдана"

/-- `BookStatus(s)` in Python: looks the string up in `_value2member_map_`;
`some` member on success, `none` when Python would raise `ValueError`. -/
def BookStatus.fromValue (s : String) : Option BookStatus :=
  if s = "в наличии" then some .AVAILABLE
  else if s = "выдана" then some .ISSUED
  else none

/-- `BookStatus.has_value(value)`: membership test of `value` in
`cls._value2member_map_`. -/
def BookStatus.has_value (s : String) : Bool :=
  (BookStatus.fromValue s).isSome

/-- `class Book`: one catalog entry, fields exactly as in `Book.__init__`. -/
structure Book where
  id : Int
  title : String
  author : String
  year : Int
  status : BookStatus
deriving DecidableEq, Repr

/-- The Python dict produced by `Book.to_dict` and consumed by
`Book.from_dict`, restricted to the five keys the code touches; a key
absent from the dict is `none` (its lookup raises `KeyError`). -/
structure Record where
  id? : Option Int
  title? : Option String
  author? : Option String
  year? : Option Int
  status? : Option String
deriving DecidableEq, Repr

/-- The Python exceptions this code can raise or catch.  In Python's
class hierarchy `json.JSONDecodeError` is a subclass of `ValueError`;
`KeyError` and `FileNotFoundError` are not `ValueError`s. -/
inductive PyError where
  | fileNotFoundError
  | jsonDecodeError
  | valueError
  | keyError
deriving DecidableEq, Repr

/-- Whether the exception is a `ValueError` or one of its subclasses
(`json.JSONDecodeError` is). -/
def PyError.isValueError : PyError → Bool
  | .valueError => true
  | .jsonDecodeError => true
  | _ => false

/-- `Book.to_dict`: mapping with keys `id, title, author, year, status`,
where `status` is the enum's external string value. -/
def Book.to_dict (b : Book) : Record :=
  { id? := some b.id
    title? := some b.title
    author? := some b.author
    year? := some b.year
    status? := some b.status.value }

/-- `Book.from_dict(data)`: `Book(book_id=data["id"], title=data["title"],
author=data["author"], year=data["year"], status=BookStatus(data["status"]))`.
Python evaluates the five argument expressions left to right, so the first
absent key raises `KeyError`; an unrecognized status string makes
`BookStatus(...)` raise `ValueError`. -/
def Book.from_dict (data : Record) : Except PyError Book :=
  match data.id? with
  | none => .error .keyError
  | some i =>
    match data.title? with
    | none => .error .keyError
    | some t =>
      match data.author? with
      | none => .error .keyError
      | some a =>
        match data.year? with
        | none => .error .keyError
        | some y =>
          match data.status? with
          | none => .error .keyError
          | some s =>
            match BookStatus.fromValue s with
            | none => .error .valueError
            | some st => .ok ⟨i, t, a, y, st⟩

/-- The backing file, abstracted to the outcome of `open(...)` followed by
`json.load(file)`: the file is absent (`open` raises `FileNotFoundError`),
present but not valid JSON (`json.load` raises `json.JSONDecodeError`), or
a valid JSON array of records.  (The claims under study only involve files
whose valid-JSON contents are arrays of objects, which is what
`save_books` writes.) -/
inductive FileState where
  | missing
  | invalidJSON
  | json (records : List Record)
deriving DecidableEq, Repr

/-- The list comprehension `[Book.from_dict(book) for book in data]`:
deserializes left to right, the first exception propagating. -/
def from_dict_list : List Record → Except PyError (List Book)
  | [] => .ok []
  | r :: rs =>
    match Book.from_dict r with
    | .error e => .error e
    | .ok b =>
      match from_dict_list rs with
      | .error e => .error e
      | .ok bs => .ok (b :: bs)

/-- The body of the `try` block of `LibraryStorage.load_books`:
open the file, `json.load` it, and deserialize each record. -/
def load_books_raw : FileState → Except PyError (List Book)
  | .missing => .error .fileNotFoundError
  | .invalidJSON => .error .jsonDecodeError
  | .json recs => from_dict_list recs

/-- `LibraryStorage.load_books`: the `try` body with
`except (FileNotFoundError, json.JSONDecodeError): return []`.  Only those
two exception classes are caught; a `ValueError` raised by
`BookStatus(...)` or a `KeyError` from a missing dict key propagates. -/
def load_books (fs : FileState) : Except PyError (List Book) :=
  match load_books_raw fs with
  | .error .fileNotFoundError => .ok []
  | .error .jsonDecodeError => .ok []
  | r => r

/-- `LibraryStorage.save_books(books)`: overwrites the backing file with
`json.dump([book.to_dict() for book in books])`.  The resulting file state
is valid JSON holding exactly those records (for records made of ints and
strings, `json.dump` followed by `json.load` reproduces them). -/
def save_books (books : List Book) : FileState :=
  .json (books.map Book.to_dict)

/-- Python's builtin `max(iterable, default=d)` on a list of integers:
the maximum of the elements, `d` when the list is empty (on a nonempty
list the default is ignored, so e.g. `max([-5], default=0)` is `-5`). -/
def py_max (l : List Int) (d : Int) : Int :=
  match l with
  | [] => d
  | x :: xs => xs.foldl max x

/-- The id `Library.add_book` assigns:
`max((book.id for book in self.books), default=0) + 1`. -/
def new_id (books : List Book) : Int :=
  py_max (books.map Book.id) 0 + 1

/-- `Library.add_book(title, author, year)`: computes `new_id`, appends
`Book(book_id=new_id, title=title, author=author, year=year)` (status
defaulting to `AVAILABLE`), then persists the collection. -/
def add_book (books : List Book) (title author : String) (year : Int) :
    List Book :=
  books ++ [{ id := new_id books, title := title, author := author,
              year := year, status := .AVAILABLE }]

/-- `Library.remove_book(book_id)`: `next((book for book in self.books if
book.id == book_id), None)`; if found, `self.books.remove(...)` deletes
that object, i.e. the first Book whose id matches; if not found, only the
not-found message is printed and the collection is untouched. -/
def remove_book (books : List Book) (book_id : Int) : List Book :=
  match books with
  | [] => []
  | b :: bs =>
    if b.id = book_id then bs
    else b :: remove_book bs book_id

/-- Python's substring operator `needle in hay` on strings, as a boolean
scan over the character lists: `needle` occurs contiguously in `hay`. -/
def py_in (needle hay : List Char) : Bool :=
  match hay with
  | [] => needle.isEmpty
  | _ :: t => needle.isPrefixOf hay || py_in needle t

/-- Python's `str.lower()`: lowercases the string character by character
(embedded with `Char.toLower` as the per-character lowercasing; both the
code side and the spec side of the search claims use this same
lowercasing, so nothing below depends on which characters it affects). -/
def py_lower (s : String) : List Char :=
  s.data.map Char.toLower

/-- The filter condition of `Library.search_books`:
`keyword.lower() in book.title.lower() or keyword.lower() in
book.author.lower() or keyword == str(book.year)`. -/
def search_cond (keyword : String) (book : Book) : Bool :=
  py_in (py_lower keyword) (py_lower book.title) ||
  py_in (py_lower keyword) (py_lower book.author) ||
  keyword == toString book.year

/-- `Library.search_books(keyword)`: the list comprehension over
`self.books` keeping the books satisfying `search_cond`. -/
def search_books (books : List Book) (keyword : String) : List Book :=
  books.filter (search_cond keyword)

/-- `Library.display_books`: iterates over `self.books` in order and
prints one line per book; the sequence of books it displays (the spec's
`list()` operation) is the collection itself, unchanged. -/
def display_books (books : List Book) : List Book :=
  books

/-- `Library.update_status(book_id, new_status)`: finds the first Book
with matching id; if found and `BookStatus.has_value(new_status)`, sets
its status to `BookStatus(new_status)` and persists; if found but the
literal is unrecognized, or if no Book matches, the collection is
untouched and only a message is printed. -/
def update_status (books : List Book) (book_id : Int) (new_status : String) :
    List Book :=
  match books with
  | [] => []
  | b :: bs =>
    if b.id = book_id then
      match BookStatus.fromValue new_status with
      | some st => { b with status := st } :: bs
      | none => b :: bs
    else b :: update_status bs book_id new_status

/-- Spec-side matching predicate for `search`: the title or the author
contains the keyword case-insensitively as a substring (the lowercased
keyword is an infix of the lowercased field), or the year rendered as a
decimal string equals the keyword. -/
def SpecMatch (b : Book) (kw : String) : Prop :=
  py_lower kw <:+: py_lower b.title ∨
  py_lower kw <:+: py_lower b.author ∨
  kw = toString b.year

instance (b : Book) (kw : String) : Decidable (SpecMatch b kw) := by
  unfold SpecMatch
  infer_instance

/-- The id sequence `1, 2, ..., n` as integers. -/
def idRange (n : Nat) : List Int :=
  (List.range n).map (fun i => (i : Int) + 1)

/-- A sequence of `add_book` calls, each giving a title, an author and a
year, executed in order on a starting collection. -/
def run_adds (books : List Book) (calls : List (String × String × Int)) :
    List Book :=
  calls.foldl (fun bs c => add_book bs c.1 c.2.1 c.2.2) books

/-! ### Helper lemmas -/

theorem foldl_max_init_le (l : List Int) (a : Int) : a ≤ l.foldl max a := by
  induction l generalizing a with
  | nil => simp
  | cons x xs ih => exact le_trans (le_max_left a x) (ih (max a x))

theorem mem_le_foldl_max (l : List Int) (a x : Int) (hx : x ∈ l) :
    x ≤ l.foldl max a := by
  induction l generalizing a with
  | nil => cases hx
  | cons y ys ih =>
    rcases List.mem_cons.mp hx with rfl | h
    · exact le_trans (le_max_right a x) (foldl_max_init_le ys (max a x))
    · exact ih (max a y) h

theorem foldl_max_mem (l : List Int) (a : Int) :
    l.foldl max a = a ∨ l.foldl max a ∈ l := by
  induction l generalizing a with
  | nil => left; rfl
  | cons x xs ih =>
    rcases ih (max a x) with h | h
    · rcases max_cases a x with ⟨hm, _⟩ | ⟨hm, _⟩
      · left
        show xs.foldl max (max a x) = a
        rw [h, hm]
      · right
        show xs.foldl max (max a x) ∈ x :: xs
        rw [h, hm]
        exact List.mem_cons_self x xs
    · right
      exact List.mem_cons_of_mem x h

theorem mem_le_py_max (l : List Int) (d x : Int) (hx : x ∈ l) :
    x ≤ py_max l d := by
  match l with
  | [] => cases hx
  | y :: ys =>
    show x ≤ ys.foldl max y
    rcases List.mem_cons.mp hx with rfl | h
    · exact foldl_max_init_le ys x
    · exact mem_le_foldl_max ys y x h

theorem py_max_mem (l : List Int) (d : Int) (h : l ≠ []) : py_max l d ∈ l := by
  match l with
  | [] => exact absurd rfl h
  | y :: ys =>
    show ys.foldl max y ∈ y :: ys
    rcases foldl_max_mem ys y with h1 | h1
    · rw [h1]
      exact List.mem_cons_self y ys
    · exact List.mem_cons_of_mem y h1

theorem id_lt_new_id (books : List Book) (b : Book) (hb : b ∈ books) :
    b.id < new_id books := by
  have h : b.id ≤ py_max (books.map Book.id) 0 :=
    mem_le_py_max _ 0 _ (List.mem_map_of_mem Book.id hb)
  exact Int.lt_add_one_iff.mpr h

theorem new_id_pred_mem (books : List Book) (h : books ≠ []) :
    new_id books - 1 ∈ books.map Book.id := by
  have hmem := py_max_mem (books.map Book.id) 0 (by simpa using h)
  simpa [new_id] using hmem

theorem new_id_not_mem (books : List Book) :
    new_id books ∉ books.map Book.id := by
  intro hmem
  rcases List.mem_map.mp hmem with ⟨b, hb, hid⟩
  have := id_lt_new_id books b hb
  omega

theorem idRange_succ (n : Nat) :
    idRange (n + 1) = idRange n ++ [(n : Int) + 1] := by
  simp [idRange, List.range_succ]

theorem py_max_append_singleton (l : List Int) (y d : Int) (h : l ≠ []) :
    py_max (l ++ [y]) d = max (py_max l d) y := by
  match l with
  | [] => exact absurd rfl h
  | x :: xs =>
    show (xs ++ [y]).foldl max x = max (xs.foldl max x) y
    rw [List.foldl_append]
    rfl

theorem py_max_idRange (n : Nat) : py_max (idRange n) 0 = (n : Int) := by
  induction n with
  | zero => rfl
  | succ m ih =>
    cases m with
    | zero => rfl
    | succ k =>
      rw [idRange_succ,
        py_max_append_singleton _ _ _
          (by simp [idRange]; exact ⟨0, k.succ_pos⟩), ih]
      rw [max_eq_right (by omega)]
      push_cast
      ring

theorem add_book_idRange (books : List Book) (t a : String) (y : Int)
    (n : Nat) (h : books.map Book.id = idRange n) :
    (add_book books t a y).map Book.id = idRange (n + 1) := by
  simp [add_book, new_id, h, py_max_idRange, idRange_succ]

theorem run_adds_ids (calls : List (String × String × Int))
    (books : List Book) (n : Nat) (h : books.map Book.id = idRange n) :
    (run_adds books calls).map Book.id = idRange (n + calls.length) := by
  induction calls generalizing books n with
  | nil => simpa using h
  | cons c cs ih =>
    have hstep := add_book_idRange books c.1 c.2.1 c.2.2 n h
    have h2 := ih (add_book books c.1 c.2.1 c.2.2) (n + 1) hstep
    show (run_adds (add_book books c.1 c.2.1 c.2.2) cs).map Book.id = _
    rw [h2]
    congr 1
    simp
    omega

/-! ### C1 -/

/-- C1: `add_book` appends one Book at the end with the given title,
author, year and status `AVAILABLE`, whose id is `1` on an empty
collection and `(max existing id) + 1` on a nonempty one (the assigned id
minus one is an existing id, and every existing id is below the assigned
id); consequently any sequence of `N` adds starting from the empty
collection assigns exactly the ids `1..N` in call order. -/
theorem add_book_spec (books : List Book) (t a : String) (y : Int) :
    (add_book books t a y =
      books ++ [{ id := new_id books, title := t, author := a, year := y,
                  status := .AVAILABLE }])
    ∧ (books = [] → new_id books = 1)
    ∧ (∀ b ∈ books, b.id < new_id books)
    ∧ (books ≠ [] → new_id books - 1 ∈ books.map Book.id)
    ∧ (∀ calls : List (String × String × Int),
        (run_adds [] calls).map Book.id = idRange calls.length) := by
  refine ⟨rfl, ?_, ?_, ?_, ?_⟩
  · rintro rfl
    rfl
  · exact fun b hb => id_lt_new_id books b hb
  · exact new_id_pred_mem books
  · intro calls
    simpa using run_adds_ids calls [] 0 rfl

/-- Witness for C1 at concrete inputs. -/
theorem add_book_spec_witness :
    new_id [⟨5, "x", "y", 3, .AVAILABLE⟩] - 1 ∈
      ([⟨5, "x", "y", 3, .AVAILABLE⟩] : List Book).map Book.id ∧
    (⟨5, "x", "y", 3, .AVAILABLE⟩ : Book).id <
      new_id [⟨5, "x", "y", 3, .AVAILABLE⟩] ∧
    new_id ([] : List Book) = 1 :=
  ⟨(add_book_spec [⟨5, "x", "y", 3, .AVAILABLE⟩] "t" "a" 7).2.2.2.1
      (by decide),
   (add_book_spec [⟨5, "x", "y", 3, .AVAILABLE⟩] "t" "a" 7).2.2.1
      ⟨5, "x", "y", 3, .AVAILABLE⟩ (by decide),
   (add_book_spec [] "t" "a" 7).2.1 rfl⟩

theorem fromValue_value (st : BookStatus) :
    BookStatus.fromValue st.value = some st := by
  cases st <;> rfl

theorem from_dict_to_dict (b : Book) :
    Book.from_dict (Book.to_dict b) = .ok b := by
  cases b with
  | mk i t a y st =>
    simp [Book.from_dict, Book.to_dict, fromValue_value]

theorem from_dict_list_to_dict (books : List Book) :
    from_dict_list (books.map Book.to_dict) = .ok books := by
  induction books with
  | nil => rfl
  | cons b bs ih =>
    simp [from_dict_list, from_dict_to_dict, ih]

/-! ### C3 and C4 -/

/-- C3: for every collection of Books, `save_books` followed by
`load_books` on the same file returns a collection equal in data to the
original: same length, same order, and for each Book the same id, title,
author, year and status (our `Book` is pure data, so this is plain list
equality). -/
theorem save_load_roundtrip (books : List Book) :
    load_books (save_books books) = .ok books := by
  simp [load_books, load_books_raw, save_books, from_dict_list_to_dict]

/-- C4: `load_books` returns an empty sequence, and raises no error, both
when the backing file does not exist and when its contents are not valid
JSON, and the two outcomes are identical, so the caller cannot tell the
conditions apart. -/
theorem load_missing_or_invalid_empty :
    load_books .missing = .ok [] ∧
    load_books .invalidJSON = .ok [] ∧
    load_books .missing = load_books .invalidJSON :=
  ⟨rfl, rfl, rfl⟩

/-! ### C8 -/

/-- Counterexample to C8 as stated: starting from the empty collection,
the first `add_book` assigns id 1, removing that Book empties the
collection, and the next `add_book` assigns id 1 again — the id of a
removed Book is reused, because `add_book` recomputes
`max(ids, default=0) + 1` from the current collection only. -/
theorem id_reuse_counterexample :
    (add_book [] "A" "B" 1).map Book.id = [1] ∧
    remove_book (add_book [] "A" "B" 1) 1 = [] ∧
    (add_book (remove_book (add_book [] "A" "B" 1) 1) "C" "D" 2).map
      Book.id = [1] := by
  decide

/-- C8 amended: an id is never reused while its Book remains in the
collection — on every collection state, `add_book` appends a Book whose
id is strictly greater than every present id, in particular an id not
currently present; but once the Book holding the current maximal id is
removed, a later `add_book` may assign that id again (as the
counterexample shows). -/
theorem add_book_fresh_id (books : List Book) (t a : String) (y : Int) :
    (add_book books t a y).map Book.id =
      books.map Book.id ++ [new_id books] ∧
    (∀ j ∈ books.map Book.id, j < new_id books) ∧
    new_id books ∉ books.map Book.id := by
  refine ⟨by simp [add_book], ?_, new_id_not_mem books⟩
  intro j hj
  rcases List.mem_map.mp hj with ⟨b, hb, rfl⟩
  exact id_lt_new_id books b hb

/-- Witness for the amended C8 at a concrete collection. -/
theorem add_book_fresh_id_witness :
    (5 : Int) < new_id [⟨5, "x", "y", 3, .AVAILABLE⟩] :=
  (add_book_fresh_id [⟨5, "x", "y", 3, .AVAILABLE⟩] "t" "a" 7).2.1 5
    (by decide)

/-! ### C9 -/

theorem remove_book_sublist (books : List Book) (i : Int) :
    (remove_book books i).Sublist books := by
  induction books with
  | nil => exact List.Sublist.refl []
  | cons b bs ih =>
    show (if b.id = i then bs else b :: remove_book bs i).Sublist (b :: bs)
    by_cases h : b.id = i
    · rw [if_pos h]
      exact (List.Sublist.refl bs).cons b
    · rw [if_neg h]
      exact ih.cons₂ b

theorem update_status_ids (books : List Book) (i : Int) (s : String) :
    (update_status books i s).map Book.id = books.map Book.id := by
  induction books with
  | nil => rfl
  | cons b bs ih =>
    show (if b.id = i then _ else b :: update_status bs i s).map Book.id = _
    by_cases h : b.id = i
    · rw [if_pos h]
      cases BookStatus.fromValue s <;> simp
    · rw [if_neg h]
      simp [ih]

/-- C9: pairwise distinctness of the ids is an invariant — if all ids in
the collection are pairwise distinct, then after `add_book`,
`remove_book` or `update_status` they still are, the result of
`search_books` has pairwise distinct ids, and the sequence shown by
`display_books` (the spec's `list()`) is the collection itself. -/
theorem ids_nodup_invariant (books : List Book) (t a : String) (y i : Int)
    (s kw : String) (h : (books.map Book.id).Nodup) :
    ((add_book books t a y).map Book.id).Nodup ∧
    ((remove_book books i).map Book.id).Nodup ∧
    ((update_status books i s).map Book.id).Nodup ∧
    ((search_books books kw).map Book.id).Nodup ∧
    ((display_books books).map Book.id).Nodup := by
  refine ⟨?_, ?_, ?_, ?_, h⟩
  · have heq : (add_book books t a y).map Book.id =
        books.map Book.id ++ [new_id books] := by
      simp [add_book]
    rw [heq, List.nodup_append]
    refine ⟨h, List.nodup_singleton _, ?_⟩
    intro x hx hmem
    rw [List.mem_singleton] at hmem
    subst hmem
    exact new_id_not_mem books hx
  · exact List.Nodup.sublist ((remove_book_sublist books i).map Book.id) h
  · rw [update_status_ids]
    exact h
  · exact List.Nodup.sublist ((List.filter_sublist books).map Book.id) h

/-- Witness for C9 at a concrete two-element collection. -/
theorem ids_nodup_invariant_witness :
    ((add_book [⟨1, "p", "q", 3, .AVAILABLE⟩, ⟨2, "r", "s", 4, .ISSUED⟩]
        "t" "a" 7).map Book.id).Nodup :=
  (ids_nodup_invariant
      [⟨1, "p", "q", 3, .AVAILABLE⟩, ⟨2, "r", "s", 4, .ISSUED⟩]
      "t" "a" 7 1 "выдана" "p" (by decide)).1

/-! ### C6 -/

/-- C6: on a collection containing a Book with the given id (written as
`l1 ++ b :: l2` where `b` is the first Book with that id), `update_status`
with a recognized status literal replaces exactly `b` by `b` with only its
status field changed (the record update `{ b with status := st }` keeps
id, title, author and year), leaving every Book of `l1` and `l2` in place
unchanged; with an unrecognized literal the whole collection, `b`
included, is returned unchanged. -/
theorem update_status_frame (l1 l2 : List Book) (b : Book) (i : Int)
    (s : String) (hid : b.id = i) (hfirst : ∀ x ∈ l1, x.id ≠ i) :
    (∀ st, BookStatus.fromValue s = some st →
      update_status (l1 ++ b :: l2) i s =
        l1 ++ { b with status := st } :: l2) ∧
    (BookStatus.fromValue s = none →
      update_status (l1 ++ b :: l2) i s = l1 ++ b :: l2) := by
  induction l1 with
  | nil =>
    constructor
    · intro st hst
      simp [update_status, hid, hst]
    · intro hst
      simp [update_status, hid, hst]
  | cons x xs ih =>
    have hx : x.id ≠ i := hfirst x (List.mem_cons_self x xs)
    have ih' := ih (fun z hz => hfirst z (List.mem_cons_of_mem x hz))
    constructor
    · intro st hst
      show (if x.id = i then _ else x :: update_status (xs ++ b :: l2) i s)
          = _
      rw [if_neg hx, ih'.1 st hst]
      rfl
    · intro hst
      show (if x.id = i then _ else x :: update_status (xs ++ b :: l2) i s)
          = _
      rw [if_neg hx, ih'.2 hst]
      rfl

/-- Witness for C6: both branches at a concrete three-element
collection. -/
theorem update_status_frame_witness :
    update_status [⟨1, "p", "q", 3, .AVAILABLE⟩, ⟨2, "r", "s", 4,
        .AVAILABLE⟩, ⟨3, "u", "v", 5, .ISSUED⟩] 2 "выдана" =
      [⟨1, "p", "q", 3, .AVAILABLE⟩, ⟨2, "r", "s", 4, .ISSUED⟩,
        ⟨3, "u", "v", 5, .ISSUED⟩] ∧
    update_status [⟨1, "p", "q", 3, .AVAILABLE⟩, ⟨2, "r", "s", 4,
        .AVAILABLE⟩, ⟨3, "u", "v", 5, .ISSUED⟩] 2 "nope" =
      [⟨1, "p", "q", 3, .AVAILABLE⟩, ⟨2, "r", "s", 4, .AVAILABLE⟩,
        ⟨3, "u", "v", 5, .ISSUED⟩] :=
  ⟨(update_status_frame [⟨1, "p", "q", 3, .AVAILABLE⟩]
      [⟨3, "u", "v", 5, .ISSUED⟩] ⟨2, "r", "s", 4, .AVAILABLE⟩ 2 "выдана"
      rfl (by decide)).1 .ISSUED rfl,
   (update_status_frame [⟨1, "p", "q", 3, .AVAILABLE⟩]
      [⟨3, "u", "v", 5, .ISSUED⟩] ⟨2, "r", "s", 4, .AVAILABLE⟩ 2 "nope"
      rfl (by decide)).2 rfl⟩

/-! ### C7 -/

theorem remove_book_not_found (books : List Book) (i : Int)
    (h : i ∉ books.map Book.id) : remove_book books i = books := by
  induction books with
  | nil => rfl
  | cons b bs ih =>
    simp only [List.map_cons, List.mem_cons] at h
    push_neg at h
    show (if b.id = i then bs else b :: remove_book bs i) = b :: bs
    rw [if_neg (fun hh => h.1 hh.symm), ih h.2]

theorem update_status_not_found (books : List Book) (i : Int) (s : String)
    (h : i ∉ books.map Book.id) : update_status books i s = books := by
  induction books with
  | nil => rfl
  | cons b bs ih =>
    simp only [List.map_cons, List.mem_cons] at h
    push_neg at h
    show (if b.id = i then _ else b :: update_status bs i s) = b :: bs
    rw [if_neg (fun hh => h.1 hh.symm), ih h.2]

theorem remove_book_ids_erase (books : List Book) (i : Int) :
    (remove_book books i).map Book.id = (books.map Book.id).erase i := by
  induction books with
  | nil => rfl
  | cons b bs ih =>
    show (if b.id = i then bs else b :: remove_book bs i).map Book.id =
      (b.id :: bs.map Book.id).erase i
    rw [List.erase_cons]
    by_cases h : b.id = i
    · rw [if_pos h, if_pos (beq_iff_eq.mpr h)]
    · rw [if_neg h, if_neg (by simp [h])]
      simp [ih]

/-- C7: for an id not present in the collection, `remove_book` and
`update_status` return the collection unchanged (and no exception is
raised — the not-found case is just a printed message); and on a
collection whose ids contain the id exactly once, `remove_book` removes
exactly one Book (the length drops by one and the id is gone), so a
second `remove_book` with the same id is a no-op. -/
theorem not_found_noop (books : List Book) (i : Int) (s : String) :
    (i ∉ books.map Book.id →
      remove_book books i = books ∧ update_status books i s = books) ∧
    ((books.map Book.id).count i = 1 →
      (remove_book books i).length + 1 = books.length ∧
      i ∉ (remove_book books i).map Book.id ∧
      remove_book (remove_book books i) i = remove_book books i) := by
  constructor
  · intro h
    exact ⟨remove_book_not_found books i h,
      update_status_not_found books i s h⟩
  · intro h
    have hmem : i ∈ books.map Book.id := by
      rw [← List.count_pos_iff]
      omega
    have hnotmem : i ∉ (remove_book books i).map Book.id := by
      rw [remove_book_ids_erase, ← List.count_eq_zero,
        List.count_erase_self, h]
    have hlen : (remove_book books i).length + 1 = books.length := by
      have h1 : ((remove_book books i).map Book.id).length =
          ((books.map Book.id).erase i).length := by
        rw [remove_book_ids_erase]
      rw [List.length_erase_of_mem hmem] at h1
      simp only [List.length_map] at h1
      have hpos : 0 < books.length := by
        cases books with
        | nil => simp at hmem
        | cons b bs => simp
      omega
    exact ⟨hlen, hnotmem,
      remove_book_not_found (remove_book books i) i hnotmem⟩

/-- Witness for C7: not-found no-op at id 2, and double removal at id 1,
on a one-element collection. -/
theorem not_found_noop_witness :
    remove_book [⟨1, "p", "q", 3, .AVAILABLE⟩] 2 =
      [⟨1, "p", "q", 3, .AVAILABLE⟩] ∧
    update_status [⟨1, "p", "q", 3, .AVAILABLE⟩] 2 "выдана" =
      [⟨1, "p", "q", 3, .AVAILABLE⟩] ∧
    (remove_book [⟨1, "p", "q", 3, .AVAILABLE⟩] 1).length + 1 = 1 ∧
    remove_book (remove_book [⟨1, "p", "q", 3, .AVAILABLE⟩] 1) 1 =
      remove_book [⟨1, "p", "q", 3, .AVAILABLE⟩] 1 :=
  ⟨((not_found_noop [⟨1, "p", "q", 3, .AVAILABLE⟩] 2 "выдана").1
      (by decide)).1,
   ((not_found_noop [⟨1, "p", "q", 3, .AVAILABLE⟩] 2 "выдана").1
      (by decide)).2,
   ((not_found_noop [⟨1, "p", "q", 3, .AVAILABLE⟩] 1 "выдана").2
      (by decide)).1,
   ((not_found_noop [⟨1, "p", "q", 3, .AVAILABLE⟩] 1 "выдана").2
      (by decide)).2.2⟩

/-! ### C2 and C10 -/

theorem py_in_iff (n hay : List Char) : py_in n hay = true ↔ n <:+: hay := by
  induction hay with
  | nil => simp [py_in, List.isEmpty_iff, List.infix_nil]
  | cons c t ih =>
    simp [py_in, Bool.or_eq_true, List.isPrefixOf_iff_prefix, ih,
      List.infix_cons_iff]

theorem search_cond_iff (kw : String) (b : Book) :
    search_cond kw b = true ↔ SpecMatch b kw := by
  simp [search_cond, SpecMatch, Bool.or_eq_true, py_in_iff, beq_iff_eq,
    or_assoc]

/-- C2: `search_books` returns exactly the Books whose title or author
contains the keyword case-insensitively as a substring, or whose year
rendered as a decimal string equals the keyword, in collection order —
the result is the filter of the collection by the spec-side matching
predicate `SpecMatch`. -/
theorem search_books_spec (books : List Book) (kw : String) :
    search_books books kw =
      books.filter (fun b => decide (SpecMatch b kw)) := by
  unfold search_books
  congr 1
  funext b
  rw [Bool.eq_iff_iff, search_cond_iff, decide_eq_true_iff]

theorem py_in_nil_left (hay : List Char) : py_in [] hay = true := by
  rw [py_in_iff]
  exact List.nil_infix

/-- C10: searching with the empty keyword returns the whole collection in
order, because the empty string is a substring of every lowercased title
(and author). -/
theorem search_empty_keyword (books : List Book) :
    search_books books "" = books := by
  rw [search_books, List.filter_eq_self]
  intro b _
  show (py_in (py_lower "") (py_lower b.title) ||
    py_in (py_lower "") (py_lower b.author) ||
    ("" == toString b.year)) = true
  have h0 : py_lower "" = [] := rfl
  rw [h0, py_in_nil_left, py_in_nil_left]
  rfl

/-! ### C5 -/

/-- Counterexample to C5 as stated: a record lacking the required key
`id` (all other keys present and the status literal recognized) makes
`from_dict` fail with `KeyError`, which is not a `ValueError`-class
exception in Python's hierarchy. -/
theorem from_dict_missing_key_counterexample :
    Book.from_dict ⟨none, some "t", some "a", some 5, some "в наличии"⟩ =
      .error .keyError ∧
    PyError.isValueError .keyError = false :=
  ⟨rfl, rfl⟩

/-- C5 amended: `from_dict` fails with a `ValueError`-class error when
all required keys are present but the status is not one of the two
recognized literals, and with a `KeyError` — an error, though not of the
`ValueError` class — when a required key is absent; in both cases, when
the backing file is valid JSON whose first record is such a record,
`load_books` propagates the error instead of returning an empty
sequence. -/
theorem from_dict_error_spec (r : Record) (rs : List Record) :
    ((∃ s, r.status? = some s ∧ BookStatus.has_value s = false) →
      r.id?.isSome = true → r.title?.isSome = true →
      r.author?.isSome = true → r.year?.isSome = true →
      Book.from_dict r = .error .valueError ∧
      PyError.isValueError .valueError = true ∧
      load_books (.json (r :: rs)) = .error .valueError) ∧
    (¬ (r.id?.isSome = true ∧ r.title?.isSome = true ∧
        r.author?.isSome = true ∧ r.year?.isSome = true ∧
        r.status?.isSome = true) →
      Book.from_dict r = .error .keyError ∧
      PyError.isValueError .keyError = false ∧
      load_books (.json (r :: rs)) = .error .keyError) := by
  rcases r with ⟨oi, ot, oa, oy, os⟩
  constructor
  · rintro ⟨s, hs, hv⟩ hi ht ha hy
    rcases oi with _ | i
    · simp at hi
    rcases ot with _ | t
    · simp at ht
    rcases oa with _ | a
    · simp at ha
    rcases oy with _ | y
    · simp at hy
    cases hs
    have hfv : BookStatus.fromValue s = none := by
      rcases hfv : BookStatus.fromValue s with _ | st
      · rfl
      · rw [BookStatus.has_value, hfv] at hv
        simp at hv
    refine ⟨?_, rfl, ?_⟩
    · simp [Book.from_dict, hfv]
    · simp [load_books, load_books_raw, from_dict_list, Book.from_dict,
        hfv]
  · intro hmiss
    rcases oi with _ | i
    · exact ⟨rfl, rfl, rfl⟩
    rcases ot with _ | t
    · exact ⟨rfl, rfl, rfl⟩
    rcases oa with _ | a
    · exact ⟨rfl, rfl, rfl⟩
    rcases oy with _ | y
    · exact ⟨rfl, rfl, rfl⟩
    rcases os with _ | s
    · exact ⟨rfl, rfl, rfl⟩
    · exact absurd ⟨rfl, rfl, rfl, rfl, rfl⟩ hmiss

/-- Witness for the amended C5: a recognized-keys record with an
unrecognized status, and a record missing its `title` key. -/
theorem from_dict_error_spec_witness :
    Book.from_dict ⟨some 1, some "t", some "a", some 5, some "bad"⟩ =
      .error .valueError ∧
    load_books (.json [⟨some 1, some "t", some "a", some 5,
      some "bad"⟩]) = .error .valueError ∧
    Book.from_dict ⟨some 2, none, some "a", some 5, some "в наличии"⟩ =
      .error .keyError ∧
    load_books (.json [⟨some 2, none, some "a", some 5,
      some "в наличии"⟩]) = .error .keyError :=
  ⟨((from_dict_error_spec ⟨some 1, some "t", some "a", some 5,
      some "bad"⟩ []).1 ⟨"bad", rfl, by decide⟩ rfl rfl rfl rfl).1,
   ((from_dict_error_spec ⟨some 1, some "t", some "a", some 5,
      some "bad"⟩ []).1 ⟨"bad", rfl, by decide⟩ rfl rfl rfl rfl).2.2,
   ((from_dict_error_spec ⟨some 2, none, some "a", some 5,
      some "в наличии"⟩ []).2 (by simp)).1,
   ((from_dict_error_spec ⟨some 2, none, some "a", some 5,
      some "в наличии"⟩ []).2 (by simp)).2.2⟩

end Lbrary
